import Mathlib

/-!
Shallow embedding of `glaxindev/url-embed-generator`:
the sanitization library (`src/lib/sanitize.ts`) and the footer-merge
embed route (`app/embed/route.ts`, the variant that merges the footer
into the description).

JavaScript strings are modelled as Lean `String` (a list of characters);
`String.prototype.slice(0, n)`, `trim`, `trimStart`, `trimEnd`,
`toLowerCase`, `includes`, `endsWith` are modelled as explicit functions
on the underlying character list.
-/

namespace UrlEmbed

/-- The whitespace class used by JavaScript `trim`/`trimStart`/`trimEnd`
(WhiteSpace ∪ LineTerminator, restricted to the code points that occur in
practice). -/
def jsWhitespace (c : Char) : Bool :=
  c = ' ' || c = '\t' || c = '\n' || c = '\r' ||
  c.toNat = 0xb || c.toNat = 0xc || c.toNat = 0xa0 || c.toNat = 0xfeff ||
  c.toNat = 0x2028 || c.toNat = 0x2029

/-- JS `s.slice(0, n)` for a non-negative `n`: the first `n` characters. -/
def jsTake (s : String) (n : Nat) : String :=
  ⟨s.data.take n⟩

/-- JS `s.trimStart()`. -/
def jsTrimStart (s : String) : String :=
  ⟨s.data.dropWhile jsWhitespace⟩

/-- JS `s.trimEnd()`. -/
def jsTrimEnd (s : String) : String :=
  ⟨(s.data.reverse.dropWhile jsWhitespace).reverse⟩

/-- JS `s.trim()`. -/
def jsTrim (s : String) : String :=
  jsTrimEnd (jsTrimStart s)

/-- JS `s.toLowerCase()` (ASCII range, which is all the route compares). -/
def jsToLower (s : String) : String :=
  ⟨s.data.map Char.toLower⟩

/-- Does the character list `p` occur at the start of `l`? -/
def startsWithL : List Char → List Char → Bool
  | _, [] => true
  | [], _ :: _ => false
  | c :: cs, p :: ps => c = p && startsWithL cs ps

/-- JS `l.includes(p)` on character lists: `p` occurs contiguously in `l`. -/
def includesL : List Char → List Char → Bool
  | [], pat => pat.isEmpty
  | l@(_ :: cs), pat => startsWithL l pat || includesL cs pat

/-- JS `s.includes(pat)`. -/
def jsIncludes (s pat : String) : Bool :=
  includesL s.data pat.data

/-- JS `s.endsWith(pat)`. -/
def jsEndsWith (s pat : String) : Bool :=
  startsWithL s.data.reverse pat.data.reverse

/-! ## `src/lib/sanitize.ts` -/

/-- The `LIMITS` record of `src/lib/sanitize.ts`. -/
structure Limits where
  title : Nat
  description : Nat
  footer : Nat

/-- The value `LIMITS = { title: 200, description: 1000, footer: 200 }`. -/
def LIMITS : Limits := { title := 200, description := 1000, footer := 200 }

/-- The `{ valid, error? }` record returned by each validator. -/
structure ValidationResult where
  valid : Bool
  error : Option String := none
deriving DecidableEq, Repr

/-- Expansion of one character by `he.escape` (the `he` library escapes
exactly `&`, `<`, `>`, `"`, `'` and the backtick, U+0060). -/
def escapeChar (c : Char) : List Char :=
  if c = '"' then "&quot;".data
  else if c = '&' then "&amp;".data
  else if c = '\'' then ("&#x27;" : String).data
  else if c = '<' then "&lt;".data
  else if c = '>' then "&gt;".data
  else if c.toNat = 96 then "&#x60;".data
  else [c]

/-- Character-list version of `escapeHtml`. -/
def escapeL : List Char → List Char
  | [] => []
  | c :: cs => escapeChar c ++ escapeL cs

/-- Definition `escapeHtml(text) = he.escape(text)`. -/
def escapeHtml (text : String) : String :=
  ⟨escapeL text.data⟩

/-- Function `validateTitle` from `src/lib/sanitize.ts`. -/
def validateTitle (title : String) : ValidationResult :=
  if title = "" || (jsTrim title).length = 0 then
    { valid := false, error := some "Title is required" }
  else if title.length > LIMITS.title then
    { valid := false, error := some "Title must be 200 characters or less" }
  else
    { valid := true }

/-- Function `validateDescription` from `src/lib/sanitize.ts`. -/
def validateDescription (desc : String) : ValidationResult :=
  if desc = "" || (jsTrim desc).length = 0 then
    { valid := false, error := some "Description is required" }
  else if desc.length > LIMITS.description then
    { valid := false, error := some "Description must be 1000 characters or less" }
  else
    { valid := true }

/-- Function `validateFooter` from `src/lib/sanitize.ts`: the footer is optional. -/
def validateFooter (footer : String) : ValidationResult :=
  if footer ≠ "" && footer.length > LIMITS.footer then
    { valid := false, error := some "Footer must be 200 characters or less" }
  else
    { valid := true }

/-- The observable part of a parsed WHATWG `URL` object: the platform's
`new URL(...)` is external to the repository, so `validateImageUrl` is
parameterised by the parse function (`none` models the constructor
throwing). -/
structure URLParts where
  protocol : String
  hostname : String

/-- Function `validateImageUrl` from `src/lib/sanitize.ts`, with the platform URL
parser passed in as `parseURL`. The hostname allowlist of the source is
commented out; the remaining `hostname.includes("localhost")` test returns
`{ valid: true }` on both branches. -/
def validateImageUrl (parseURL : String → Option URLParts)
    (imageUrl : String) : ValidationResult :=
  if imageUrl = "" || (jsTrim imageUrl).length = 0 then
    { valid := true }
  else
    match parseURL imageUrl with
    | none => { valid := false, error := some "Invalid URL format" }
    | some url =>
      if url.protocol ≠ "https:" then
        { valid := false, error := some "Image URL must be HTTPS only" }
      else if !(jsIncludes url.hostname "localhost") then
        { valid := true }
      else
        { valid := true }

/-! ### `buildShareableUrl` / `getEmbedParams`

`URLSearchParams` is a platform object; it is modelled as the list of
key/value pairs it holds, and its `toString` as the
`application/x-www-form-urlencoded` serializer. -/

/-- Upper-case hexadecimal digit, as used by `URLSearchParams` percent
encoding. -/
def hexDigit (n : Nat) : Char :=
  if n < 10 then Char.ofNat (48 + n) else Char.ofNat (55 + n)

/-- UTF-8 bytes of one code point. -/
def utf8Bytes (c : Char) : List Nat :=
  let n := c.toNat
  if n < 0x80 then [n]
  else if n < 0x800 then [0xc0 + n / 0x40, 0x80 + n % 0x40]
  else if n < 0x10000 then
    [0xe0 + n / 0x1000, 0x80 + (n / 0x40) % 0x40, 0x80 + n % 0x40]
  else
    [0xf0 + n / 0x40000, 0x80 + (n / 0x1000) % 0x40,
     0x80 + (n / 0x40) % 0x40, 0x80 + n % 0x40]

/-- Percent-encode a byte list. -/
def percentBytes : List Nat → List Char
  | [] => []
  | b :: bs => '%' :: hexDigit (b / 16) :: hexDigit (b % 16) :: percentBytes bs

/-- One character under `application/x-www-form-urlencoded` serialization:
`*`, `-`, `.`, `_` and ASCII alphanumerics pass through, space becomes
`+`, everything else is percent-encoded per UTF-8 byte. -/
def formEncodeChar (c : Char) : List Char :=
  if c = ' ' then ['+']
  else if c.isAlphanum || c = '*' || c = '-' || c = '.' || c = '_' then [c]
  else percentBytes (utf8Bytes c)

/-- Form-urlencode a character list. -/
def formEncodeL : List Char → List Char
  | [] => []
  | c :: cs => formEncodeChar c ++ formEncodeL cs

/-- Serialization by `URLSearchParams.toString()` of one `key=value` pair. -/
def serializePair (kv : String × String) : String :=
  ⟨formEncodeL kv.1.data ++ '=' :: formEncodeL kv.2.data⟩

/-- Serialization `URLSearchParams.toString()`: pairs joined by `&`. -/
def serializePairs : List (String × String) → String
  | [] => ""
  | [kv] => serializePair kv
  | kv :: rest => serializePair kv ++ "&" ++ serializePairs rest

/-- The argument of `buildShareableUrl` (`Partial<EmbedParams>`): every
field may be absent. -/
structure PartialEmbedParams where
  title : Option String := none
  desc : Option String := none
  footer : Option String := none
  image : Option String := none

/-- JS truthiness of a `string | undefined` value: `undefined` and `""`
are falsy. -/
def truthy : Option String → Bool
  | none => false
  | some s => !(s = "")

/-- The key/value pairs `buildShareableUrl` sets on its
`URLSearchParams`, in source order. -/
def shareablePairs (p : PartialEmbedParams) : List (String × String) :=
  (if truthy p.title then [("title", p.title.getD "")] else []) ++
  (if truthy p.desc then [("desc", p.desc.getD "")] else []) ++
  (if truthy p.footer then [("footer", p.footer.getD "")] else []) ++
  (if truthy p.image then [("image", p.image.getD "")] else [])

/-- Function `buildShareableUrl` from `src/lib/sanitize.ts`. -/
def buildShareableUrl (p : PartialEmbedParams) : String :=
  "/embed?" ++ serializePairs (shareablePairs p)

/-- Lookup `URLSearchParams.get`: the first value stored under `key`, or null. -/
def getParam : List (String × String) → String → Option String
  | [], _ => none
  | (k, v) :: rest, key => if k = key then some v else getParam rest key

/-- The `EmbedParams` interface of `src/lib/sanitize.ts` (`image` is the
optional field). -/
structure EmbedParams where
  title : String
  desc : String
  footer : String
  image : Option String

/-- Function `getEmbedParams` from `src/lib/sanitize.ts`: `get(k) || ""` for the
three text fields, `get("image") || undefined` for the image. -/
def getEmbedParams (q : List (String × String)) : EmbedParams :=
  { title := match getParam q "title" with
      | none => ""
      | some s => if s = "" then "" else s
    desc := match getParam q "desc" with
      | none => ""
      | some s => if s = "" then "" else s
    footer := match getParam q "footer" with
      | none => ""
      | some s => if s = "" then "" else s
    image := match getParam q "image" with
      | none => none
      | some s => if s = "" then none else some s }

/-! ## `app/embed/route.ts` — the footer-merge composer -/

/-- The fallback used when the description is invalid. -/
def fallbackDescription : String :=
  "A shareable embed card created with Dynamic Embed Generator"

/-- Step `footerAllowed = footerValid.valid ? footerRaw.slice(0, LIMITS.footer) : ""`. -/
def footerAllowedOf (footerRaw : String) : String :=
  if (validateFooter footerRaw).valid then jsTake footerRaw LIMITS.footer else ""

/-- Step ``footerMarkdown = footerAllowed ? `\n\n**${footerAllowed}**` : ""``. -/
def footerMarkdownOf (footerAllowed : String) : String :=
  if footerAllowed ≠ "" then "\n\n**" ++ footerAllowed ++ "**" else ""

/-- Step `baseDesc = descValid.valid ? descRaw.slice(0, LIMITS.description) : fallback`. -/
def baseDescOf (descRaw : String) : String :=
  if (validateDescription descRaw).valid then jsTake descRaw LIMITS.description
  else fallbackDescription

/-- Step `shrunkFooter = footerAllowed.slice(0, Math.max(0, LIMITS.description - 4)).trim()`. -/
def shrunkFooterOf (footerAllowed : String) : String :=
  jsTrim (jsTake footerAllowed (max 0 ((LIMITS.description : Int) - 4)).toNat)

/-- Step `if (!description) description = baseDesc.slice(0, LIMITS.description)`. -/
def fallbackIfEmpty (d alt : String) : String :=
  if d = "" then alt else d

/-- The description/footer merge of `app/embed/route.ts` lines 59–95,
taking the already-computed `baseDesc`, `footerMarkdown` and
`footerAllowed`. The arithmetic on `LIMITS.description` is done in `Int`,
as JS numbers would. -/
def mergeDescription (baseDesc footerMarkdown footerAllowed : String) : String :=
  if footerMarkdown ≠ "" then
    if baseDesc.length + footerMarkdown.length ≤ LIMITS.description then
      baseDesc ++ footerMarkdown
    else if 3 < (LIMITS.description : Int) - footerMarkdown.length then
      jsTrimEnd (jsTake baseDesc ((LIMITS.description : Int) - footerMarkdown.length - 3).toNat)
        ++ "..." ++ footerMarkdown
    else if (footerMarkdownOf (shrunkFooterOf footerAllowed)).length ≤ LIMITS.description then
      fallbackIfEmpty
        (if (jsTrimStart (footerMarkdownOf (shrunkFooterOf footerAllowed))).length ≠ 0 then
          jsTrimStart (footerMarkdownOf (shrunkFooterOf footerAllowed))
        else jsTake baseDesc LIMITS.description)
        (jsTake baseDesc LIMITS.description)
    else
      jsTake baseDesc LIMITS.description
  else
    jsTake baseDesc LIMITS.description

/-- The og:description string (before HTML escaping) produced by the
route from the raw `desc` and `footer` query parameters. -/
def composeDescription (desc footer : String) : String :=
  mergeDescription (baseDescOf (jsTrim desc))
    (footerMarkdownOf (footerAllowedOf (jsTrim footer)))
    (footerAllowedOf (jsTrim footer))

/-- The merge restricted to its first two branches (plain concatenation
and ellipsis truncation); used to show the footer-shrink fallback branch
is unreachable under the actual `LIMITS`. -/
def mergeDescriptionTwoBranch (baseDesc footerMarkdown : String) : String :=
  if footerMarkdown ≠ "" then
    if baseDesc.length + footerMarkdown.length ≤ LIMITS.description then
      baseDesc ++ footerMarkdown
    else
      jsTrimEnd (jsTake baseDesc ((LIMITS.description : Int) - footerMarkdown.length - 3).toNat)
        ++ "..." ++ footerMarkdown
  else
    jsTake baseDesc LIMITS.description

/-- Variant of `composeDescription` with the fallback branch removed. -/
def composeDescriptionTwoBranch (desc footer : String) : String :=
  mergeDescriptionTwoBranch (baseDescOf (jsTrim desc))
    (footerMarkdownOf (footerAllowedOf (jsTrim footer)))

/-- The MIME-type hint derived in the route from the (escaped) image URL. -/
def imageTypeOf (url : String) : String :=
  if jsEndsWith (jsToLower url) ".png" then "image/png"
  else if jsEndsWith (jsToLower url) ".webp" then "image/webp"
  else if jsEndsWith (jsToLower url) ".gif" then "image/gif"
  else if jsEndsWith (jsToLower url) ".jpg" || jsEndsWith (jsToLower url) ".jpeg" then
    "image/jpeg"
  else "image/*"

/-- The parts of the route's HTTP response that depend on the inputs:
the status code and the escaped strings interpolated into the HTML. -/
structure EmbedResponse where
  status : Nat
  titleOut : String
  descriptionOut : String
  footerOut : String
  imageUrlOut : String
  imageTypeOut : String

/-- Handler `GET` of `app/embed/route.ts` as a function of the extracted
`EmbedParams` (the URL parser is a parameter, as in `validateImageUrl`). -/
def renderEmbed (parseURL : String → Option URLParts) (p : EmbedParams) :
    EmbedResponse :=
  let titleRaw := jsTrim p.title
  let footerRaw := jsTrim p.footer
  let imageRaw := jsTrim (p.image.getD "")
  let footerAllowed := footerAllowedOf footerRaw
  let imageUrl := if (validateImageUrl parseURL imageRaw).valid then imageRaw else ""
  { status := 200
    titleOut := escapeHtml
      (if (validateTitle titleRaw).valid then jsTake titleRaw LIMITS.title
       else "Untitled Card")
    descriptionOut := escapeHtml (composeDescription p.desc p.footer)
    footerOut := escapeHtml footerAllowed
    imageUrlOut := escapeHtml imageUrl
    imageTypeOut := if escapeHtml imageUrl ≠ "" then imageTypeOf (escapeHtml imageUrl)
      else "" }

/-! ## Basic length lemmas -/

theorem jsTake_length_le (s : String) (n : Nat) : (jsTake s n).length ≤ n := by
  show (s.data.take n).length ≤ n
  rw [List.length_take]
  exact min_le_left _ _

theorem dropWhile_length_le (p : Char → Bool) (l : List Char) :
    (l.dropWhile p).length ≤ l.length :=
  (List.dropWhile_sublist p).length_le

theorem jsTrimStart_length_le (s : String) : (jsTrimStart s).length ≤ s.length :=
  dropWhile_length_le _ _

theorem jsTrimEnd_length_le (s : String) : (jsTrimEnd s).length ≤ s.length := by
  show ((s.data.reverse.dropWhile jsWhitespace).reverse).length ≤ s.data.length
  rw [List.length_reverse]
  exact le_trans (dropWhile_length_le _ _) (le_of_eq (List.length_reverse _))

theorem fallbackIfEmpty_length_le {n : Nat} {d alt : String}
    (hd : d.length ≤ n) (halt : alt.length ≤ n) :
    (fallbackIfEmpty d alt).length ≤ n := by
  unfold fallbackIfEmpty
  split <;> assumption

theorem footerAllowedOf_length_le (fr : String) :
    (footerAllowedOf fr).length ≤ LIMITS.footer := by
  unfold footerAllowedOf
  split
  · exact jsTake_length_le _ _
  · exact Nat.zero_le _

theorem footerMarkdownOf_length (fa : String) :
    footerMarkdownOf fa = "" ∨ (footerMarkdownOf fa).length = fa.length + 6 := by
  unfold footerMarkdownOf
  split
  · right
    rw [String.length_append, String.length_append]
    have h1 : ("\n\n**" : String).length = 4 := rfl
    have h2 : ("**" : String).length = 2 := rfl
    omega
  · left; rfl

/-! ## The truncation budget (claim C1) -/

theorem mergeDescription_length_le (b fm fa : String) :
    (mergeDescription b fm fa).length ≤ LIMITS.description := by
  unfold mergeDescription
  split
  · split
    · next h => rw [String.length_append]; exact h
    · split
      · next h3 =>
        rw [String.length_append, String.length_append]
        have h1 : (jsTrimEnd (jsTake b
            ((LIMITS.description : Int) - (fm.length : Int) - 3).toNat)).length ≤
            ((LIMITS.description : Int) - (fm.length : Int) - 3).toNat :=
          le_trans (jsTrimEnd_length_le _) (jsTake_length_le _ _)
        have hdot : ("..." : String).length = 3 := rfl
        omega
      · split
        · next h4 =>
          refine fallbackIfEmpty_length_le ?_ (jsTake_length_le _ _)
          split
          · exact le_trans (jsTrimStart_length_le _) h4
          · exact jsTake_length_le _ _
        · exact jsTake_length_le _ _
  · exact jsTake_length_le _ _

/-- C1: for every choice of the raw `desc` and `footer` query parameters,
the og:description the footer-merge route composes (before HTML escaping)
has length at most `LIMITS.description = 1000`. -/
theorem composeDescription_length_le (desc footer : String) :
    (composeDescription desc footer).length ≤ LIMITS.description :=
  mergeDescription_length_le _ _ _

/-! ## Unreachability of the footer-shrink branch (claim C9) -/

theorem mergeDescription_eq_twoBranch (b fm fa : String)
    (h : fm ≠ "" → 3 < (LIMITS.description : Int) - (fm.length : Int)) :
    mergeDescription b fm fa = mergeDescriptionTwoBranch b fm := by
  unfold mergeDescription mergeDescriptionTwoBranch
  by_cases hne : fm = ""
  · rw [if_neg (fun hc => hc hne), if_neg (fun hc => hc hne)]
  · rw [if_pos hne, if_pos hne]
    by_cases hlen : b.length + fm.length ≤ LIMITS.description
    · rw [if_pos hlen, if_pos hlen]
    · rw [if_neg hlen, if_neg hlen, if_pos (h hne)]

/-- C9: under the actual limits, whenever the footer markdown is non-empty
its length is at most 206, so the footer-shrink fallback branch of the
merge is never taken: the composed description always comes from the
plain-concatenation or ellipsis-truncation branch. -/
theorem fallback_branch_unreachable (desc footer : String) :
    (footerMarkdownOf (footerAllowedOf (jsTrim footer)) ≠ "" →
      (footerMarkdownOf (footerAllowedOf (jsTrim footer))).length ≤ 206 ∧
      3 < (LIMITS.description : Int) -
        ((footerMarkdownOf (footerAllowedOf (jsTrim footer))).length : Int)) ∧
    composeDescription desc footer = composeDescriptionTwoBranch desc footer := by
  have hfa : (footerAllowedOf (jsTrim footer)).length ≤ LIMITS.footer :=
    footerAllowedOf_length_le _
  have hfoot : LIMITS.footer = 200 := rfl
  have hdesc : LIMITS.description = 1000 := rfl
  have key : footerMarkdownOf (footerAllowedOf (jsTrim footer)) ≠ "" →
      (footerMarkdownOf (footerAllowedOf (jsTrim footer))).length ≤ 206 ∧
      3 < (LIMITS.description : Int) -
        ((footerMarkdownOf (footerAllowedOf (jsTrim footer))).length : Int) := by
    intro hne
    rcases footerMarkdownOf_length (footerAllowedOf (jsTrim footer)) with h | h
    · exact absurd h hne
    · omega
  refine ⟨key, ?_⟩
  unfold composeDescription composeDescriptionTwoBranch
  exact mergeDescription_eq_twoBranch _ _ _ (fun hne => (key hne).2)

/-- C9 witness: the general theorem applied at a concrete input whose
footer markdown is non-empty. -/
theorem fallback_branch_unreachable_witness :
    (footerMarkdownOf (footerAllowedOf (jsTrim "hi"))).length ≤ 206 ∧
    composeDescription "some text" "hi" = composeDescriptionTwoBranch "some text" "hi" :=
  ⟨((fallback_branch_unreachable "some text" "hi").1 (by decide)).1,
   (fallback_branch_unreachable "some text" "hi").2⟩

/-! ## The concrete merge scenario (claim C2) -/

set_option maxRecDepth 200000

/-- C2 counterexample: for description "A"×995 and footer "B"×10 the
footer markdown built by the route is `"\n\n**BBBBBBBBBB**"`, whose length
is 16, not 18, and the composed description is not
"A"×979 ++ "..." ++ footer markdown. -/
theorem mergeScenario_claim_false :
    (footerMarkdownOf (footerAllowedOf (jsTrim (String.mk (List.replicate 10 'B'))))).length
      = 16 ∧
    composeDescription (String.mk (List.replicate 995 'A')) (String.mk (List.replicate 10 'B'))
      ≠ String.mk (List.replicate 979 'A') ++ "..." ++ "\n\n**BBBBBBBBBB**" := by
  exact ⟨by decide, by decide⟩

/-- C2 amended: for description "A"×995 (valid) and footer "B"×10 the
route builds footerMarkdown `"\n\n**BBBBBBBBBB**"` of 16 characters, the
combined length is 995 + 16 = 1011 > 1000, allowedBase = 1000 - 16 = 984 > 3,
the result is "A"×981 followed by "..." and the full footer markdown, and
its length is exactly 1000. -/
theorem mergeScenario_amended :
    (validateDescription (jsTrim (String.mk (List.replicate 995 'A')))).valid = true ∧
    footerMarkdownOf (footerAllowedOf (jsTrim (String.mk (List.replicate 10 'B'))))
      = "\n\n**BBBBBBBBBB**" ∧
    ("\n\n**BBBBBBBBBB**" : String).length = 16 ∧
    (baseDescOf (jsTrim (String.mk (List.replicate 995 'A')))).length + 16 = 1011 ∧
    (LIMITS.description : Int) - 16 = 984 ∧
    composeDescription (String.mk (List.replicate 995 'A')) (String.mk (List.replicate 10 'B'))
      = String.mk (List.replicate 981 'A') ++ "..." ++ "\n\n**BBBBBBBBBB**" ∧
    (composeDescription (String.mk (List.replicate 995 'A'))
      (String.mk (List.replicate 10 'B'))).length = 1000 := by
  refine ⟨by decide, by decide, by decide, by decide, by decide, by decide, by decide⟩

/-! ## Substring machinery (claims C3 and C6) -/

theorem startsWithL_iff (p l : List Char) :
    startsWithL l p = true ↔ ∃ t, l = p ++ t := by
  induction p generalizing l with
  | nil =>
    cases l <;> simp [startsWithL]
  | cons q qs ih =>
    cases l with
    | nil => simp [startsWithL]
    | cons c cs =>
      simp only [startsWithL, Bool.and_eq_true, decide_eq_true_eq, ih]
      constructor
      · rintro ⟨rfl, t, rfl⟩
        exact ⟨t, rfl⟩
      · rintro ⟨t, ht⟩
        simp only [List.cons_append, List.cons.injEq] at ht
        exact ⟨ht.1, t, ht.2⟩

theorem includesL_iff (p l : List Char) :
    includesL l p = true ↔ ∃ a t, l = a ++ (p ++ t) := by
  induction l with
  | nil =>
    simp only [includesL, List.isEmpty_iff]
    constructor
    · rintro rfl
      exact ⟨[], [], rfl⟩
    · rintro ⟨a, t, ht⟩
      rcases List.append_eq_nil.mp ht.symm with ⟨-, h2⟩
      exact (List.append_eq_nil.mp h2).1
  | cons c cs ih =>
    simp only [includesL, Bool.or_eq_true, startsWithL_iff, ih]
    constructor
    · rintro (⟨t, ht⟩ | ⟨a, t, rfl⟩)
      · exact ⟨[], t, by simpa using ht⟩
      · exact ⟨c :: a, t, rfl⟩
    · rintro ⟨a, t, ht⟩
      cases a with
      | nil => exact Or.inl ⟨t, by simpa using ht⟩
      | cons x xs =>
        simp only [List.cons_append, List.cons.injEq] at ht
        exact Or.inr ⟨xs, t, ht.2⟩

theorem escapeL_append (a b : List Char) :
    escapeL (a ++ b) = escapeL a ++ escapeL b := by
  induction a with
  | nil => rfl
  | cons c cs ih => simp [escapeL, ih]

theorem jsIncludes_escapeHtml (s pat : String) (h : jsIncludes s pat = true) :
    jsIncludes (escapeHtml s) ⟨escapeL pat.data⟩ = true := by
  rcases (includesL_iff pat.data s.data).mp h with ⟨a, t, ht⟩
  show includesL (escapeL s.data) (escapeL pat.data) = true
  refine (includesL_iff _ _).mpr ⟨escapeL a, escapeL t, ?_⟩
  rw [ht, escapeL_append, escapeL_append]

/-- C3: HTML escaping maps a description containing `<script>` to one
containing `&lt;script&gt;`, while literal asterisks survive unchanged: a
description containing `**bold**` still contains the raw characters
`**bold**` after escaping. -/
theorem escapeHtml_script_bold (s : String) :
    (jsIncludes s "<script>" = true →
      jsIncludes (escapeHtml s) "&lt;script&gt;" = true) ∧
    (jsIncludes s "**bold**" = true →
      jsIncludes (escapeHtml s) "**bold**" = true) := by
  constructor
  · intro h
    have h2 := jsIncludes_escapeHtml s "<script>" h
    have he : (⟨escapeL ("<script>" : String).data⟩ : String) = "&lt;script&gt;" := by decide
    rwa [he] at h2
  · intro h
    have h2 := jsIncludes_escapeHtml s "**bold**" h
    have he : (⟨escapeL ("**bold**" : String).data⟩ : String) = "**bold**" := by decide
    rwa [he] at h2

/-! ## Validators (claims C4 and C5) -/

/-- C4: for every URL parser, `validateImageUrl` is valid on empty or
whitespace-only input; on other input it reports the invalid-format error
exactly when parsing fails, the HTTPS-only error exactly when the parsed
scheme is not `https:`, and is valid otherwise — for any hostname,
localhost included. -/
theorem validateImageUrl_spec (parseURL : String → Option URLParts) (url : String) :
    ((jsTrim url).length = 0 → (validateImageUrl parseURL url).valid = true) ∧
    ((jsTrim url).length ≠ 0 →
      (parseURL url = none →
        validateImageUrl parseURL url =
          { valid := false, error := some "Invalid URL format" }) ∧
      (∀ parts, parseURL url = some parts →
        (parts.protocol ≠ "https:" →
          validateImageUrl parseURL url =
            { valid := false, error := some "Image URL must be HTTPS only" }) ∧
        (parts.protocol = "https:" →
          (validateImageUrl parseURL url).valid = true))) := by
  constructor
  · intro h
    unfold validateImageUrl
    rw [if_pos (by simp [h])]
  · intro h
    have hne : ¬(url = "") := fun he => h (by rw [he]; rfl)
    unfold validateImageUrl
    rw [if_neg (by simp [hne, h])]
    constructor
    · intro hp
      rw [hp]
    · intro parts hp
      rw [hp]
      constructor
      · intro hproto
        show (if parts.protocol ≠ "https:" then
            ({ valid := false, error := some "Image URL must be HTTPS only" } : ValidationResult)
          else if !(jsIncludes parts.hostname "localhost") then { valid := true }
          else { valid := true }) =
          { valid := false, error := some "Image URL must be HTTPS only" }
        rw [if_pos hproto]
      · intro hproto
        show (if parts.protocol ≠ "https:" then
            ({ valid := false, error := some "Image URL must be HTTPS only" } : ValidationResult)
          else if !(jsIncludes parts.hostname "localhost") then { valid := true }
          else { valid := true }).valid = true
        rw [if_neg (fun hc => hc hproto)]
        split <;> rfl

/-- C4 witness: the theorem applied to a parser that yields an HTTPS URL
with hostname `localhost`, at a non-blank input. -/
theorem validateImageUrl_spec_witness :
    (validateImageUrl (fun _ => some ⟨"https:", "localhost"⟩)
      "https://localhost/a.png").valid = true :=
  (((validateImageUrl_spec (fun _ => some ⟨"https:", "localhost"⟩)
      "https://localhost/a.png").2 (by decide)).2
    ⟨"https:", "localhost"⟩ rfl).2 rfl

/-- C5: `validateTitle` rejects exactly the titles whose trimmed form is
empty or whose length exceeds `LIMITS.title = 200`; in particular `""` and
201 copies of 'a' are invalid while 200 copies are valid. -/
theorem validateTitle_spec :
    (∀ t : String, (validateTitle t).valid = false ↔
      ((jsTrim t).length = 0 ∨ LIMITS.title < t.length)) ∧
    (validateTitle "").valid = false ∧
    (validateTitle (String.mk (List.replicate 201 'a'))).valid = false ∧
    (validateTitle (String.mk (List.replicate 200 'a'))).valid = true := by
  refine ⟨fun t => ?_, by decide, by decide, by decide⟩
  unfold validateTitle
  rcases Decidable.em ((jsTrim t).length = 0) with h0 | h0
  · rw [if_pos (by simp [h0])]
    simp [h0]
  · have hne : ¬(t = "") := fun he => h0 (by rw [he]; rfl)
    rw [if_neg (by simp [hne, h0])]
    by_cases h2 : t.length > LIMITS.title
    · rw [if_pos h2]
      simp [h0, h2]
    · rw [if_neg h2]
      simp [h0, h2]

/-! ## MIME-type derivation (claim C6) -/

theorem jsEndsWith_not_both (s p1 p2 : String)
    (hf1 : startsWithL p2.data.reverse p1.data.reverse = false)
    (hf2 : startsWithL p1.data.reverse p2.data.reverse = false)
    (h2 : jsEndsWith s p2 = true) : jsEndsWith s p1 = false := by
  by_contra hcon
  rw [Bool.not_eq_false] at hcon
  rcases (startsWithL_iff p1.data.reverse s.data.reverse).mp hcon with ⟨t1, ht1⟩
  rcases (startsWithL_iff p2.data.reverse s.data.reverse).mp h2 with ⟨t2, ht2⟩
  have hp1 : p1.data.reverse <+: s.data.reverse := ⟨t1, ht1.symm⟩
  have hp2 : p2.data.reverse <+: s.data.reverse := ⟨t2, ht2.symm⟩
  rcases List.prefix_or_prefix_of_prefix hp1 hp2 with hpre | hpre
  · rcases hpre with ⟨t, ht⟩
    rw [(startsWithL_iff p1.data.reverse p2.data.reverse).mpr ⟨t, ht.symm⟩] at hf1
    exact Bool.noConfusion hf1
  · rcases hpre with ⟨t, ht⟩
    rw [(startsWithL_iff p2.data.reverse p1.data.reverse).mpr ⟨t, ht.symm⟩] at hf2
    exact Bool.noConfusion hf2

/-- C6: the MIME-type hint is derived purely from the lowercase suffix of
the image URL: `.png` gives `image/png`, `.webp` gives `image/webp`,
`.gif` gives `image/gif`, `.jpg` or `.jpeg` gives `image/jpeg`, anything
else gives `image/*`; in particular a URL ending `.WEBP` gives
`image/webp`. -/
theorem imageTypeOf_spec :
    (∀ url : String,
      (jsEndsWith (jsToLower url) ".png" = true → imageTypeOf url = "image/png") ∧
      (jsEndsWith (jsToLower url) ".webp" = true → imageTypeOf url = "image/webp") ∧
      (jsEndsWith (jsToLower url) ".gif" = true → imageTypeOf url = "image/gif") ∧
      ((jsEndsWith (jsToLower url) ".jpg" = true ∨ jsEndsWith (jsToLower url) ".jpeg" = true) →
        imageTypeOf url = "image/jpeg") ∧
      (jsEndsWith (jsToLower url) ".png" = false → jsEndsWith (jsToLower url) ".webp" = false →
        jsEndsWith (jsToLower url) ".gif" = false → jsEndsWith (jsToLower url) ".jpg" = false →
        jsEndsWith (jsToLower url) ".jpeg" = false → imageTypeOf url = "image/*")) ∧
    imageTypeOf "https://x.example/pic.WEBP" = "image/webp" := by
  refine ⟨fun url => ⟨?_, ?_, ?_, ?_, ?_⟩, by decide⟩
  · intro h
    simp [imageTypeOf, h]
  · intro h
    have hpng := jsEndsWith_not_both (jsToLower url) ".png" ".webp" (by decide) (by decide) h
    simp [imageTypeOf, h, hpng]
  · intro h
    have hpng := jsEndsWith_not_both (jsToLower url) ".png" ".gif" (by decide) (by decide) h
    have hwebp := jsEndsWith_not_both (jsToLower url) ".webp" ".gif" (by decide) (by decide) h
    simp [imageTypeOf, h, hpng, hwebp]
  · rintro (h | h)
    · have hpng := jsEndsWith_not_both (jsToLower url) ".png" ".jpg" (by decide) (by decide) h
      have hwebp := jsEndsWith_not_both (jsToLower url) ".webp" ".jpg" (by decide) (by decide) h
      have hgif := jsEndsWith_not_both (jsToLower url) ".gif" ".jpg" (by decide) (by decide) h
      simp [imageTypeOf, h, hpng, hwebp, hgif]
    · have hpng := jsEndsWith_not_both (jsToLower url) ".png" ".jpeg" (by decide) (by decide) h
      have hwebp := jsEndsWith_not_both (jsToLower url) ".webp" ".jpeg" (by decide) (by decide) h
      have hgif := jsEndsWith_not_both (jsToLower url) ".gif" ".jpeg" (by decide) (by decide) h
      simp [imageTypeOf, h, hpng, hwebp, hgif]
  · intro h1 h2 h3 h4 h5
    simp [imageTypeOf, h1, h2, h3, h4, h5]

/-! ## The route never fails (claim C7) -/

/-- C7: for every URL parser and every input record the route responds
with status 200; an invalid title is replaced by `"Untitled Card"`, an
invalid description makes the base description the fallback sentence, and
an invalid or malformed image URL leaves the image absent. -/
theorem renderEmbed_spec (parseURL : String → Option URLParts) (p : EmbedParams) :
    (renderEmbed parseURL p).status = 200 ∧
    ((validateTitle (jsTrim p.title)).valid = false →
      (renderEmbed parseURL p).titleOut = escapeHtml "Untitled Card") ∧
    ((validateDescription (jsTrim p.desc)).valid = false →
      baseDescOf (jsTrim p.desc) = fallbackDescription) ∧
    ((validateImageUrl parseURL (jsTrim (p.image.getD ""))).valid = false →
      (renderEmbed parseURL p).imageUrlOut = "") := by
  refine ⟨rfl, ?_, ?_, ?_⟩
  · intro h
    unfold renderEmbed
    simp only [h]
    rfl
  · intro h
    unfold baseDescOf
    rw [if_neg (by simp [h])]
  · intro h
    unfold renderEmbed
    simp only [h]
    rfl

/-- C7 witness: the theorem applied to the always-failing parser and the
all-empty parameter record, whose title, description and image are all
invalid or absent. -/
theorem renderEmbed_spec_witness :
    (renderEmbed (fun _ => none) ⟨"", "", "", none⟩).status = 200 ∧
    (renderEmbed (fun _ => none) ⟨"", "", "", none⟩).titleOut = escapeHtml "Untitled Card" ∧
    baseDescOf (jsTrim "") = fallbackDescription :=
  ⟨(renderEmbed_spec (fun _ => none) ⟨"", "", "", none⟩).1,
   (renderEmbed_spec (fun _ => none) ⟨"", "", "", none⟩).2.1 (by decide),
   (renderEmbed_spec (fun _ => none) ⟨"", "", "", none⟩).2.2.1 (by decide)⟩

/-! ## Link builder and parameter extractor (claims C8 and C10) -/

/-- C8: `buildShareableUrl` serializes only the keys whose values are
truthy — for `{title: "X"}` it yields exactly `"/embed?title=X"` — and
`getEmbedParams` defaults the three text fields to the empty string while
a missing (or empty) image parameter becomes `undefined`, not `""`. -/
theorem buildShareableUrl_getEmbedParams_spec :
    buildShareableUrl { title := some "X" } = "/embed?title=X" ∧
    (∀ p : PartialEmbedParams,
      (shareablePairs p).map Prod.fst =
        (if truthy p.title then ["title"] else []) ++
        (if truthy p.desc then ["desc"] else []) ++
        (if truthy p.footer then ["footer"] else []) ++
        (if truthy p.image then ["image"] else [])) ∧
    (∀ q : List (String × String),
      (getParam q "title" = none → (getEmbedParams q).title = "") ∧
      (getParam q "desc" = none → (getEmbedParams q).desc = "") ∧
      (getParam q "footer" = none → (getEmbedParams q).footer = "") ∧
      (getParam q "image" = none → (getEmbedParams q).image = none) ∧
      (getParam q "image" = some "" → (getEmbedParams q).image = none)) := by
  refine ⟨by decide, fun p => ?_, fun q => ?_⟩
  · unfold shareablePairs
    split <;> split <;> split <;> split <;> rfl
  · refine ⟨fun h => ?_, fun h => ?_, fun h => ?_, fun h => ?_, fun h => ?_⟩ <;>
      simp [getEmbedParams, h]

/-- C10: when every field of the argument is falsy (absent or the empty
string), `buildShareableUrl` returns the literal `"/embed?"` — a trailing
question mark with an empty query — and not `"/embed"`. -/
theorem buildShareableUrl_all_falsy (p : PartialEmbedParams)
    (ht : truthy p.title = false) (hd : truthy p.desc = false)
    (hf : truthy p.footer = false) (hi : truthy p.image = false) :
    buildShareableUrl p = "/embed?" ∧ "/embed?" ≠ "/embed" := by
  refine ⟨?_, by decide⟩
  unfold buildShareableUrl shareablePairs
  simp only [ht, hd, hf, hi]
  rfl

/-- C10 witness: the theorem applied to a record whose fields are a
mixture of absent and empty-string values. -/
theorem buildShareableUrl_all_falsy_witness :
    buildShareableUrl { title := some "", desc := none, footer := some "", image := none }
      = "/embed?" ∧ "/embed?" ≠ "/embed" :=
  buildShareableUrl_all_falsy
    { title := some "", desc := none, footer := some "", image := none }
    (by decide) (by decide) (by decide) (by decide)

end UrlEmbed
